import Mathlib

/-!
Shallow embedding of the embedding-indexed document store of this repository
(`src/storage/vector_store.py`, `src/storage/embeddings.py`,
`src/storage/data_ingestion.py`, `src/api/data_sync.py`), together with
theorems settling the specification claims about it.

Modelling conventions:
* The FAISS index (`faiss.IndexFlatL2`) stores one fixed-dimension vector per
  `index.add` row, and every vector entering it is `model.encode(text)` for a
  known text; since `encode` is a fixed deterministic function, the index is
  modelled by the list of texts whose embeddings occupy positions `0..n-1`,
  so `index.ntotal` is the list length.  Nearest-neighbour queries are
  modelled by an oracle function passed as a parameter (the claims never
  depend on the numerical search itself).
* Python dicts holding documents are modelled by a `Doc` structure carrying
  exactly the fields the store reads (`doc.get("text", "")` etc.); absent
  `text` and empty `text` are both falsy in Python and both modelled by `""`.
  Where dict *merge* semantics matter (`embed_chunked_document`), dicts are
  modelled literally as insertion-ordered key/value lists.
* Distances/scores are modelled with `ℚ` (the claims only use ordering and
  `1 / (1 + d)`).
-/

namespace UberAwareables

/-- A document as handed to the store: the fields `FAISSVectorStore` reads
via `doc.get`.  Absent `text` is modelled as `""` (both are falsy for
`doc.get("text", "")`). -/
structure Doc where
  id : String
  text : String
  date : Option String
  source : Option String
  deriving DecidableEq, Repr

/-- A stored metadata record: `dict(doc)` plus the stamped `"vector_id"`
field (`vector_store.py` lines 117-121). -/
structure StoredDoc where
  doc : Doc
  vector_id : Nat
  deriving DecidableEq, Repr

/-- In-memory state of `FAISSVectorStore`: the FAISS index (modelled by the
texts embedded into it, in position order, so `index.ntotal` is the length)
and the parallel `self.documents` metadata list. -/
structure Store where
  index : List String
  documents : List StoredDoc
  deriving DecidableEq, Repr

/-- The freshly initialised store (`__init__` before `_load`). -/
def Store.empty : Store := ⟨[], []⟩

/-- `for i, doc in enumerate(documents): doc_with_idx["vector_id"] = current_size + i`
(`vector_store.py` lines 117-121): stamp consecutive vector ids starting at
`current_size`. -/
def stampFrom (current_size : Nat) : List Doc → List StoredDoc
  | [] => []
  | d :: ds => ⟨d, current_size⟩ :: stampFrom (current_size + 1) ds

/-- `for i, doc in enumerate(self.documents): doc["vector_id"] = i`
(`vector_store.py` lines 290-291): renumber stored documents to their dense
positions, starting at `i`. -/
def renumber (i : Nat) : List StoredDoc → List StoredDoc
  | [] => []
  | d :: ds => ⟨d.doc, i⟩ :: renumber (i + 1) ds

/-- `FAISSVectorStore.add_documents` (lines 82-126), in-memory effect.
Returns the updated store and the returned count.  `_save` (line 124) never
changes in-memory state, so it is invisible here; the persistence-aware
variant is modelled separately. -/
def add_documents (documents : List Doc) (s : Store) : Store × Nat :=
  if documents.isEmpty then (s, 0)
  else
    let texts := documents.map (fun doc => doc.text)
    if texts.all (fun t => t == "") then (s, 0)
    else
      let current_size := s.index.length
      (⟨s.index ++ texts, s.documents ++ stampFrom current_size documents⟩,
        documents.length)

/-- `FAISSVectorStore.delete_document` (lines 258-301): remove the first
document whose id matches, then rebuild the index from the remaining texts
and renumber all `vector_id`s (or reset the index when nothing remains). -/
def delete_document (doc_id : String) (s : Store) : Store × Bool :=
  match s.documents.findIdx? (fun doc => doc.doc.id == doc_id) with
  | none => (s, false)
  | some i =>
    let rest := s.documents.eraseIdx i
    if rest.length > 0 then
      (⟨rest.map (fun doc => doc.doc.text), renumber 0 rest⟩, true)
    else
      (⟨[], rest⟩, true)

/-- `FAISSVectorStore.clear` (lines 303-313). -/
def clear (_s : Store) : Store × Bool :=
  (⟨[], []⟩, true)

/-- `FAISSVectorStore.get_document_by_id` (lines 243-256): linear scan,
first match wins. -/
def get_document_by_id (doc_id : String) (s : Store) : Option StoredDoc :=
  s.documents.find? (fun doc => doc.doc.id == doc_id)

/-- One mutating call on the store, as in claim C1. -/
inductive StoreOp where
  | add (documents : List Doc)
  | delete (doc_id : String)
  | clearAll
  deriving Repr

/-- Apply one mutating call. -/
def applyOp (s : Store) : StoreOp → Store
  | .add documents => (add_documents documents s).1
  | .delete doc_id => (delete_document doc_id s).1
  | .clearAll => (clear s).1

/-- Apply a sequence of mutating calls, first op first. -/
def applyOps (s : Store) : List StoreOp → Store
  | [] => s
  | op :: ops => applyOps (applyOp s op) ops

/-- The central store invariant: index size equals the number of stored
metadata documents, and the document at position `i` has `vector_id = i`. -/
def StoreInv (s : Store) : Prop :=
  s.index.length = s.documents.length ∧
  ∀ i : Fin s.documents.length, (s.documents.get i).vector_id = i.val

theorem stampFrom_length (c : Nat) (ds : List Doc) :
    (stampFrom c ds).length = ds.length := by
  induction ds generalizing c with
  | nil => rfl
  | cons d ds ih => simp [stampFrom, ih]

theorem stampFrom_vector_id (c : Nat) (ds : List Doc)
    (i : Fin (stampFrom c ds).length) :
    ((stampFrom c ds).get i).vector_id = c + i.val := by
  induction ds generalizing c with
  | nil => exact absurd i.isLt (by simp [stampFrom])
  | cons d ds ih =>
    match i with
    | ⟨0, _⟩ => simp [stampFrom]
    | ⟨j + 1, hj⟩ =>
      have hj2 : j < (stampFrom (c + 1) ds).length := by
        simpa [stampFrom] using hj
      have := ih (c + 1) ⟨j, hj2⟩
      simp only [stampFrom, List.get] at this ⊢
      omega

theorem renumber_length (c : Nat) (ds : List StoredDoc) :
    (renumber c ds).length = ds.length := by
  induction ds generalizing c with
  | nil => rfl
  | cons d ds ih => simp [renumber, ih]

theorem renumber_vector_id (c : Nat) (ds : List StoredDoc)
    (i : Fin (renumber c ds).length) :
    ((renumber c ds).get i).vector_id = c + i.val := by
  induction ds generalizing c with
  | nil => exact absurd i.isLt (by simp [renumber])
  | cons d ds ih =>
    match i with
    | ⟨0, _⟩ => simp [renumber]
    | ⟨j + 1, hj⟩ =>
      have hj2 : j < (renumber (c + 1) ds).length := by
        simpa [renumber] using hj
      have := ih (c + 1) ⟨j, hj2⟩
      simp only [renumber, List.get] at this ⊢
      omega

theorem storeInv_empty : StoreInv Store.empty := by
  constructor
  · rfl
  · intro i
    exact absurd i.isLt (by simp [Store.empty])

theorem append_stampFrom_vector_id (docs : List StoredDoc) (ds : List Doc)
    (hid : ∀ i : Fin docs.length, (docs.get i).vector_id = i.val)
    (i : Fin (docs ++ stampFrom docs.length ds).length) :
    ((docs ++ stampFrom docs.length ds).get i).vector_id = i.val := by
  rcases i with ⟨i, hi⟩
  simp only [List.get_eq_getElem]
  rw [List.getElem_append]
  split
  · rename_i hlt
    have := hid ⟨i, hlt⟩
    simpa [List.get_eq_getElem] using this
  · rename_i hlt
    have hi2 : i - docs.length < (stampFrom docs.length ds).length := by
      simp only [List.length_append] at hi
      omega
    have := stampFrom_vector_id docs.length ds ⟨i - docs.length, hi2⟩
    simp only [List.get_eq_getElem] at this
    rw [this]
    omega

theorem storeInv_add (documents : List Doc) (s : Store) (h : StoreInv s) :
    StoreInv (add_documents documents s).1 := by
  obtain ⟨hlen, hid⟩ := h
  by_cases he : documents.isEmpty
  · simpa [add_documents, he] using And.intro hlen hid
  · by_cases ha : (documents.map (fun doc => doc.text)).all (fun t => t == "")
    · simpa [add_documents, he, ha] using And.intro hlen hid
    · have hstep : (add_documents documents s).1 =
          ⟨s.index ++ documents.map (fun doc => doc.text),
            s.documents ++ stampFrom s.index.length documents⟩ := by
        simp [add_documents, he, ha]
      rw [hstep, hlen]
      exact ⟨by simp [stampFrom_length, hlen],
        append_stampFrom_vector_id s.documents documents hid⟩

theorem storeInv_delete (doc_id : String) (s : Store) (h : StoreInv s) :
    StoreInv (delete_document doc_id s).1 := by
  rcases hfind : s.documents.findIdx? (fun doc => doc.doc.id == doc_id) with _ | i
  · simpa [delete_document, hfind] using h
  · by_cases hlen : 0 < (s.documents.eraseIdx i).length
    · have hstep : (delete_document doc_id s).1 =
          ⟨(s.documents.eraseIdx i).map (fun doc => doc.doc.text),
            renumber 0 (s.documents.eraseIdx i)⟩ := by
        simp [delete_document, hfind, hlen]
      rw [hstep]
      refine ⟨by simp [renumber_length], ?_⟩
      intro j
      simpa using renumber_vector_id 0 _ j
    · have hnil : s.documents.eraseIdx i = [] := by
        cases hcase : s.documents.eraseIdx i with
        | nil => rfl
        | cons a l => rw [hcase] at hlen; simp at hlen
      have hstep : (delete_document doc_id s).1 = ⟨[], []⟩ := by
        simp [delete_document, hfind, hlen, hnil]
      rw [hstep]
      exact ⟨rfl, fun j => absurd j.isLt (by simp)⟩

theorem storeInv_clear (s : Store) : StoreInv (clear s).1 := by
  refine ⟨rfl, ?_⟩
  intro i
  exact absurd i.isLt (by simp [clear])

theorem storeInv_applyOp (s : Store) (op : StoreOp) (h : StoreInv s) :
    StoreInv (applyOp s op) := by
  cases op with
  | add documents => exact storeInv_add documents s h
  | delete doc_id => exact storeInv_delete doc_id s h
  | clearAll => exact storeInv_clear s

theorem storeInv_applyOps (ops : List StoreOp) (s : Store) (h : StoreInv s) :
    StoreInv (applyOps s ops) := by
  induction ops generalizing s with
  | nil => exact h
  | cons op ops ih => exact ih _ (storeInv_applyOp s op h)

/-- C1: for every sequence of calls to `add_documents`, `delete_document`
and `clear` starting from the fresh store, after each call completes the
vector index size equals the number of stored metadata documents, and the
stored document at every position `i` has `vector_id = i`. -/
theorem C1_store_invariant (ops : List StoreOp) :
    (applyOps Store.empty ops).index.length =
      (applyOps Store.empty ops).documents.length ∧
    ∀ i : Fin (applyOps Store.empty ops).documents.length,
      ((applyOps Store.empty ops).documents.get i).vector_id = i.val :=
  storeInv_applyOps ops Store.empty storeInv_empty

/-! ## Search (`FAISSVectorStore.search`, `search_by_date`) -/

/-- Similarity score `1 / (1 + distance)` (vector_store.py line 196);
distances are modelled in `ℚ`. -/
def scoreOf (distance : ℚ) : ℚ := 1 / (1 + distance)

/-- Nearest-neighbour oracle standing for `faiss.IndexFlatL2.search`: given
the index contents, the query and the requested row count, it returns the
`(indices[0][i], distances[0][i])` rows.  No settled claim depends on the
numerical behaviour of the index, so it stays a parameter. -/
abbrev FaissSearch := List String → String → Nat → List (Int × ℚ)

/-- Insert `a` into the already-sorted `l`, before the first element it may
precede — the insertion step of a stable sort. -/
def pyInsert (le : α → α → Bool) (a : α) : List α → List α
  | [] => [a]
  | b :: bs => if le a b then a :: b :: bs else b :: pyInsert le a bs

/-- Python's `sorted` / `list.sort` with comparator `le`: CPython's sort is
stable, and a stable sort's output is determined by `le` (for a total
preorder) plus input order, so this structural insertion sort computes the
same list Timsort does. -/
def pySorted (le : α → α → Bool) (l : List α) : List α :=
  l.foldr (pyInsert le) []

/-- `sorted(results, key=..., reverse=True)` (vector_store.py line 204):
stable, ordered by key descending (equal-key elements keep original
order). -/
def pySortByScoreDesc (results : List (StoredDoc × ℚ)) : List (StoredDoc × ℚ) :=
  pySorted (fun a b => decide (b.2 ≤ a.2)) results

/-- `FAISSVectorStore.search` (lines 152-206) for calls with
`namespace=None` (the default at every call site within the claims' scope,
so the namespace-wrapping branch at lines 168-182 is not taken): guard the
empty query / empty index, overfetch `min(k*2, ntotal)` rows, keep hits with
a valid document position, attach the similarity score, apply the optional
filter, sort by score descending and truncate to `k`. -/
def search (faiss : FaissSearch) (query : String) (k : Nat)
    (filter_fn : Option (StoredDoc → Bool)) (s : Store) :
    List (StoredDoc × ℚ) :=
  if query = "" ∨ s.index.length = 0 then []
  else
    let hits := faiss s.index query (min (k * 2) s.index.length)
    let results := hits.filterMap (fun hit =>
      if h : 0 ≤ hit.1 ∧ hit.1.toNat < s.documents.length then
        some (s.documents.get ⟨hit.1.toNat, h.2⟩, scoreOf hit.2)
      else none)
    let results2 :=
      match filter_fn with
      | some f => results.filter (fun r => f r.1)
      | none => results
    (pySortByScoreDesc results2).take k

/-- Modelled from the spec's words (§4.3 `search`), for comparison with the
code-derived `search`: embed the query; overfetch `min(2k, size)` nearest
neighbours; map surviving positions back to documents, attaching the score;
apply the filter if given; re-sort by score descending; truncate to `k`;
an empty query string or an empty index returns an empty sequence. -/
def searchSpec (faiss : FaissSearch) (query : String) (k : Nat)
    (filter_fn : Option (StoredDoc → Bool)) (s : Store) :
    List (StoredDoc × ℚ) :=
  if query = "" ∨ s.index.length = 0 then []
  else
    let overfetched := faiss s.index query (min (2 * k) s.index.length)
    let withScores := overfetched.filterMap (fun hit =>
      if h : 0 ≤ hit.1 ∧ hit.1.toNat < s.documents.length then
        some (s.documents.get ⟨hit.1.toNat, h.2⟩, scoreOf hit.2)
      else none)
    let survivors :=
      match filter_fn with
      | some f => withScores.filter (fun r => f r.1)
      | none => withScores
    (pySortByScoreDesc survivors).take k

/-- `FAISSVectorStore.search_by_date` (lines 208-224): compose `search` with
the truthiness filter `doc_date and doc_date.startswith(date)`. -/
def search_by_date (faiss : FaissSearch) (query date : String) (k : Nat)
    (s : Store) : List (StoredDoc × ℚ) :=
  let date_filter := fun (doc : StoredDoc) =>
    decide ((doc.doc.date.getD "") ≠ "") &&
      (doc.doc.date.getD "").startsWith date
  search faiss query k (some date_filter) s

/-- C4: `search` follows the spec's pipeline exactly — embed, overfetch
`min(2k, ntotal)`, map positions to documents with similarity scores, filter,
re-sort by score descending, truncate to `k` — and returns the empty
sequence (not an error) on an empty query string or an empty index. -/
theorem C4_search_matches_spec (faiss : FaissSearch) (query : String)
    (k : Nat) (filter_fn : Option (StoredDoc → Bool)) (s : Store) :
    search faiss query k filter_fn s = searchSpec faiss query k filter_fn s ∧
    search faiss "" k filter_fn s = [] ∧
    search faiss query k filter_fn ⟨[], s.documents⟩ = [] := by
  refine ⟨?_, by simp [search], by simp [search]⟩
  have hmul : 2 * k = k * 2 := Nat.mul_comm 2 k
  by_cases hq : query = ""
  · simp [search, searchSpec, hq]
  · by_cases hn : s.index.length = 0
    · simp [search, searchSpec, hq, hn]
    · simp [search, searchSpec, hq, hn, hmul]

/-- C9 amended: `search_by_date` with an empty query string returns the
empty sequence on every store — `search` short-circuits on empty queries
before the date filter can run. -/
theorem C9_empty_query_search_by_date (faiss : FaissSearch) (date : String)
    (k : Nat) (s : Store) : search_by_date faiss "" date k s = [] := by
  simp [search_by_date, search]

/-- The document of Scenario B dated 2025-05-04. -/
def docMay4 : Doc := ⟨"a", "hello world", some "2025-05-04", some "bee"⟩

/-- The document of Scenario B dated 2025-05-05, from the other source. -/
def docMay5 : Doc := ⟨"b", "good morning", some "2025-05-05", some "limitless"⟩

/-- The store of Scenario B: both documents added. -/
def scenarioBStore : Store := (add_documents [docMay4, docMay5] Store.empty).1

/-- A nearest-neighbour oracle returning no rows; `search` with an empty
query never consults the oracle, so the result below is the same for every
oracle. -/
def noFaiss : FaissSearch := fun _ _ _ => []

/-- C9 counterexample: in Scenario B both documents are stored, yet
`search_by_date("", "2025-05-04", k=10)` does not return the matching
document's id — it returns the empty list. -/
theorem C9_scenario_b_counterexample :
    scenarioBStore.documents.map (fun doc => doc.doc.id) = ["a", "b"] ∧
    (search_by_date noFaiss "" "2025-05-04" 10 scenarioBStore).map
        (fun r => r.1.doc.id) = [] ∧
    ([] : List String) ≠ ["a"] := by
  refine ⟨by decide, ?_, by decide⟩
  simp [search_by_date, search]

/-! ## Duplicate ids (claim C10) and empty-text handling (claim C5) -/

theorem findIdx_offset_first (p : StoredDoc → Bool) (pre post : List StoredDoc)
    (d : StoredDoc) (hpre : ∀ x ∈ pre, p x = false) (hd : p d = true) (i : Nat) :
    (pre ++ d :: post).findIdx? p i = some (i + pre.length) := by
  induction pre generalizing i with
  | nil => simp [hd]
  | cons a pre ih =>
    have ha : p a = false := hpre a (List.mem_cons_self a pre)
    have hrec := ih (fun x hx => hpre x (List.mem_cons_of_mem a hx)) (i + 1)
    simp only [List.cons_append, List.findIdx?_cons, ha, Bool.false_eq_true,
      if_false, hrec, List.length_cons]
    congr 1
    omega

theorem find_first_match (p : StoredDoc → Bool) (pre post : List StoredDoc)
    (d : StoredDoc) (hpre : ∀ x ∈ pre, p x = false) (hd : p d = true) :
    (pre ++ d :: post).find? p = some d := by
  have hnone : pre.find? p = none := by
    rw [List.find?_eq_none]
    intro x hx
    simp [hpre x hx]
  simp [List.find?_append, hnone, List.find?_cons_of_pos _ hd]

theorem renumber_map_doc (c : Nat) (ds : List StoredDoc) :
    (renumber c ds).map (fun doc => doc.doc) = ds.map (fun doc => doc.doc) := by
  induction ds generalizing c with
  | nil => rfl
  | cons d ds ih => simp [renumber, ih]

/-- C10: the store does not enforce id uniqueness.  On a store whose first
document with a given id is `d` (no earlier occurrence, arbitrarily many
later duplicates in `post`): `add_documents` appends a further document with
that id and counts it; `get_document_by_id` returns `d`, the
earliest-inserted occurrence; `delete_document` removes exactly `d`, and
every later duplicate survives (all documents other than `d` remain, merely
renumbered). -/
theorem C10_duplicate_ids_tolerated (pre post : List StoredDoc)
    (idx : List String) (d : StoredDoc) (nd : Doc)
    (hpre : ∀ x ∈ pre, x.doc.id ≠ d.doc.id)
    (hid : nd.id = d.doc.id) (htext : nd.text ≠ "") :
    ((add_documents [nd] ⟨idx, pre ++ d :: post⟩).1.documents =
        (pre ++ d :: post) ++ [⟨nd, idx.length⟩] ∧
      (add_documents [nd] ⟨idx, pre ++ d :: post⟩).2 = 1) ∧
    get_document_by_id d.doc.id ⟨idx, pre ++ d :: post⟩ = some d ∧
    ((delete_document d.doc.id ⟨idx, pre ++ d :: post⟩).2 = true ∧
      (delete_document d.doc.id ⟨idx, pre ++ d :: post⟩).1.documents =
        renumber 0 (pre ++ post) ∧
      (delete_document d.doc.id ⟨idx, pre ++ d :: post⟩).1.documents.map
          (fun doc => doc.doc) =
        (pre ++ post).map (fun doc => doc.doc)) := by
  have hprefalse : ∀ x ∈ pre, (fun doc => doc.doc.id == d.doc.id) x = false := by
    intro x hx
    simpa using hpre x hx
  have hdtrue : (fun doc => doc.doc.id == d.doc.id) d = true := by simp
  have hfind := findIdx_offset_first _ pre post d hprefalse hdtrue 0
  simp only [Nat.zero_add] at hfind
  have herase : (pre ++ d :: post).eraseIdx pre.length = pre ++ post := by
    rw [List.eraseIdx_append_of_length_le (Nat.le_refl _)]
    simp
  have hdel : delete_document d.doc.id ⟨idx, pre ++ d :: post⟩ =
      (⟨(pre ++ post).map (fun doc => doc.doc.text), renumber 0 (pre ++ post)⟩,
        true) := by
    rcases hcase : pre ++ post with _ | ⟨a, rest⟩
    · simp [delete_document, hfind, herase, hcase, renumber]
    · simp [delete_document, hfind, herase, hcase]
  refine ⟨⟨?_, ?_⟩, ?_, ?_, ?_, ?_⟩
  · simp [add_documents, htext, stampFrom]
  · simp [add_documents, htext]
  · exact find_first_match _ pre post d hprefalse hdtrue
  · rw [hdel]
  · rw [hdel]
  · rw [hdel]
    simpa using renumber_map_doc 0 (pre ++ post)

/-- The leading unrelated document of the C10 witness store. -/
def dupPre : List StoredDoc := [⟨⟨"z", "t0", none, none⟩, 0⟩]

/-- The later duplicate of id `"dup"` in the C10 witness store. -/
def dupPost : List StoredDoc := [⟨⟨"dup", "t2", none, none⟩, 2⟩]

/-- The first-inserted document with id `"dup"` in the C10 witness store. -/
def dupDoc : StoredDoc := ⟨⟨"dup", "t1", none, none⟩, 1⟩

/-- A further document with id `"dup"` added in the C10 witness. -/
def dupNew : Doc := ⟨"dup", "t3", none, none⟩

/-- Witness for C10, at a concrete three-document store with a duplicate id. -/
theorem C10_witness :
    ((add_documents [dupNew] ⟨["t0", "t1", "t2"], dupPre ++ dupDoc :: dupPost⟩).1.documents =
        (dupPre ++ dupDoc :: dupPost) ++ [⟨dupNew, (["t0", "t1", "t2"] : List String).length⟩] ∧
      (add_documents [dupNew] ⟨["t0", "t1", "t2"], dupPre ++ dupDoc :: dupPost⟩).2 = 1) ∧
    get_document_by_id dupDoc.doc.id ⟨["t0", "t1", "t2"], dupPre ++ dupDoc :: dupPost⟩ =
      some dupDoc ∧
    ((delete_document dupDoc.doc.id ⟨["t0", "t1", "t2"], dupPre ++ dupDoc :: dupPost⟩).2 = true ∧
      (delete_document dupDoc.doc.id
          ⟨["t0", "t1", "t2"], dupPre ++ dupDoc :: dupPost⟩).1.documents =
        renumber 0 (dupPre ++ dupPost) ∧
      (delete_document dupDoc.doc.id
          ⟨["t0", "t1", "t2"], dupPre ++ dupDoc :: dupPost⟩).1.documents.map
          (fun doc => doc.doc) =
        (dupPre ++ dupPost).map (fun doc => doc.doc)) :=
  C10_duplicate_ids_tolerated dupPre dupPost ["t0", "t1", "t2"] dupDoc dupNew
    (by decide) (by decide) (by decide)

/-- A document with text, used in concrete scenarios. -/
def textedDoc : Doc := ⟨"a", "hello", none, none⟩

/-- A document whose `text` is empty/absent. -/
def emptyTextDoc : Doc := ⟨"b", "", none, none⟩

/-- C5 counterexample: in a batch holding one non-empty-text document and
one empty-text document, the empty-text document is embedded, stored and
counted — `add_documents` returns 2 and document `"b"` with empty text sits
in the store, where the claim requires it dropped and the count to be 1. -/
theorem C5_counterexample_empty_text_stored :
    (add_documents [textedDoc, emptyTextDoc] Store.empty).2 = 2 ∧
    (add_documents [textedDoc, emptyTextDoc] Store.empty).1.documents.map
        (fun doc => (doc.doc.id, doc.doc.text)) = [("a", "hello"), ("b", "")] ∧
    (add_documents [textedDoc, emptyTextDoc] Store.empty).1.documents.any
        (fun doc => doc.doc.text == "") = true := by
  decide

/-- C5 amended: `add_documents` never drops individual documents.  When
every document in the batch has empty or absent text (the empty batch
included) it stores nothing and returns 0; otherwise it embeds, stores and
counts every document of the batch, the empty-text ones included. -/
theorem C5_add_all_or_none (documents : List Doc) (s : Store) :
    ((∀ d ∈ documents, d.text = "") →
      (add_documents documents s).1 = s ∧ (add_documents documents s).2 = 0) ∧
    (¬ (∀ d ∈ documents, d.text = "") →
      (add_documents documents s).1.documents =
          s.documents ++ stampFrom s.index.length documents ∧
      (add_documents documents s).2 = documents.length) := by
  constructor
  · intro hall
    have hallb : (documents.map (fun doc => doc.text)).all (fun t => t == "") = true := by
      rw [List.all_eq_true]
      intro t ht
      rcases List.mem_map.mp ht with ⟨d, hd, rfl⟩
      simp [hall d hd]
    rcases hdoc : documents with _ | ⟨d, ds⟩
    · simp [add_documents]
    · rw [← hdoc]
      have hne : documents.isEmpty = false := by simp [hdoc]
      simp [add_documents, hne, hallb]
  · intro hsome
    have hne : documents ≠ [] := by
      rintro rfl
      exact hsome (by intro d hd; cases hd)
    have hsomeb : (documents.map (fun doc => doc.text)).all (fun t => t == "") = false := by
      rcases Classical.not_forall.mp hsome with ⟨d, hd⟩
      rcases Classical.not_imp.mp hd with ⟨hmem, htext⟩
      rw [List.all_eq_false]
      exact ⟨d.text, List.mem_map.mpr ⟨d, hmem, rfl⟩, by simpa using htext⟩
    have hneb : documents.isEmpty = false := by simpa using hne
    simp [add_documents, hneb, hsomeb]

/-- Witness for C5 (amended): the all-empty branch on batch `[⟨"b", ""⟩]`
and the commit branch on batch `[⟨"a", "hello"⟩, ⟨"b", ""⟩]`. -/
theorem C5_witness :
    ((add_documents [emptyTextDoc] Store.empty).1 = Store.empty ∧
      (add_documents [emptyTextDoc] Store.empty).2 = 0) ∧
    ((add_documents [textedDoc, emptyTextDoc] Store.empty).1.documents =
        Store.empty.documents ++
          stampFrom Store.empty.index.length [textedDoc, emptyTextDoc] ∧
      (add_documents [textedDoc, emptyTextDoc] Store.empty).2 =
        [textedDoc, emptyTextDoc].length) :=
  ⟨(C5_add_all_or_none [emptyTextDoc] Store.empty).1 (by decide),
    (C5_add_all_or_none [textedDoc, emptyTextDoc] Store.empty).2 (by decide)⟩

/-! ## Persistence (`_save`, `_load`) and the failure modes of `add_documents` -/

/-- Errors `add_documents` can propagate: the only statement inside it that
can raise out of the method is `self.model.encode(texts)` (vector_store.py
line 105) — `_save` catches its own exceptions (lines 79-80). -/
inductive AddError where
  | encodeRaised
  deriving DecidableEq, Repr

/-- The store together with the persisted artifact pair (`faiss_index.bin`,
`documents.pkl`), each modelled by its parsed content. -/
structure PStore where
  mem : Store
  savedIndex : List String
  savedDocuments : List StoredDoc
  deriving DecidableEq, Repr

/-- `FAISSVectorStore._save` (lines 66-80): write the index artifact, then
the metadata artifact; any exception is caught and printed and the method
returns normally.  `writeIndexFails` models `faiss.write_index` raising
(neither artifact replaced); `pickleFails` models `pickle.dump` raising
(the index artifact already replaced, the metadata artifact stale). -/
def pySave (writeIndexFails pickleFails : Bool) (s : PStore) : PStore :=
  if writeIndexFails then s
  else if pickleFails then { s with savedIndex := s.mem.index }
  else { s with savedIndex := s.mem.index, savedDocuments := s.mem.documents }

/-- `FAISSVectorStore.add_documents` (lines 82-126) with its failure modes
explicit: `encodeFails` models `model.encode` raising — the exception
propagates to the caller before any state is touched; the `_save` failure
flags are as in `pySave` — a save failure does not fail the call. -/
def add_documentsP (encodeFails writeIndexFails pickleFails : Bool)
    (documents : List Doc) (s : PStore) : PStore × Except AddError Nat :=
  if documents.isEmpty then (s, .ok 0)
  else
    let texts := documents.map (fun doc => doc.text)
    if texts.all (fun t => t == "") then (s, .ok 0)
    else if encodeFails then (s, .error .encodeRaised)
    else
      let mem2 : Store := ⟨s.mem.index ++ texts,
        s.mem.documents ++ stampFrom s.mem.index.length documents⟩
      (pySave writeIndexFails pickleFails { s with mem := mem2 },
        .ok documents.length)

/-- The persistence-aware store with nothing in memory or on disk. -/
def PStore.empty : PStore := ⟨Store.empty, [], []⟩

/-- C3 counterexample: adding one document while the metadata write of
`_save` fails.  The operation reports success (`.ok 1`, no error of any
kind), the in-memory store keeps the new batch (prior state not restored),
and on disk the index artifact holds the new vector while the metadata
artifact is still the old one — none of which the claim permits. -/
theorem C3_counterexample_save_failure :
    (add_documentsP false false true [textedDoc] PStore.empty).2 =
      Except.ok 1 ∧
    (add_documentsP false false true [textedDoc] PStore.empty).1.mem ≠
      Store.empty ∧
    (add_documentsP false false true [textedDoc] PStore.empty).1.savedIndex =
      ["hello"] ∧
    (add_documentsP false false true [textedDoc] PStore.empty).1.savedDocuments =
      [] := by
  refine ⟨rfl, ?_, rfl, rfl⟩
  decide

/-- C3 amended: an embedding failure makes `add_documents` fail with the
propagated error and leaves memory and artifacts fully intact, and the
index and metadata appends are committed together as one in-memory unit;
but a persistence failure is caught inside `_save`: the call still returns
the full batch count, the in-memory store keeps the whole batch, and each
artifact individually keeps its prior content exactly when its write (or an
earlier one) failed. -/
theorem C3_add_failure_semantics (writeIndexFails pickleFails : Bool)
    (documents : List Doc) (s : PStore)
    (hsome : ¬ (∀ d ∈ documents, d.text = "")) :
    (add_documentsP true writeIndexFails pickleFails documents s =
      (s, .error .encodeRaised)) ∧
    ((add_documentsP false writeIndexFails pickleFails documents s).1.mem =
      ⟨s.mem.index ++ documents.map (fun doc => doc.text),
        s.mem.documents ++ stampFrom s.mem.index.length documents⟩) ∧
    ((add_documentsP false writeIndexFails pickleFails documents s).2 =
      .ok documents.length) ∧
    ((add_documentsP false true pickleFails documents s).1.savedIndex =
        s.savedIndex ∧
      (add_documentsP false true pickleFails documents s).1.savedDocuments =
        s.savedDocuments) ∧
    ((add_documentsP false false true documents s).1.savedIndex =
        s.mem.index ++ documents.map (fun doc => doc.text) ∧
      (add_documentsP false false true documents s).1.savedDocuments =
        s.savedDocuments) ∧
    ((add_documentsP false false false documents s).1.savedIndex =
        s.mem.index ++ documents.map (fun doc => doc.text) ∧
      (add_documentsP false false false documents s).1.savedDocuments =
        s.mem.documents ++ stampFrom s.mem.index.length documents) := by
  have hne : documents ≠ [] := by
    rintro rfl
    exact hsome (by intro d hd; cases hd)
  have hneb : documents.isEmpty = false := by simpa using hne
  have hsomeb : (documents.map (fun doc => doc.text)).all (fun t => t == "") = false := by
    rcases Classical.not_forall.mp hsome with ⟨d, hd⟩
    rcases Classical.not_imp.mp hd with ⟨hmem, htext⟩
    rw [List.all_eq_false]
    exact ⟨d.text, List.mem_map.mpr ⟨d, hmem, rfl⟩, by simpa using htext⟩
  cases writeIndexFails <;> cases pickleFails <;>
    refine ⟨?_, ?_, ?_, ⟨?_, ?_⟩, ⟨?_, ?_⟩, ⟨?_, ?_⟩⟩ <;>
    simp [add_documentsP, hneb, hsomeb, pySave]

/-- Witness for C3 (amended), on the one-document batch `[⟨"a", "hello"⟩]`
over the empty persisted store with the metadata write failing. -/
theorem C3_witness :
    (add_documentsP true false true [textedDoc] PStore.empty =
      (PStore.empty, .error .encodeRaised)) ∧
    ((add_documentsP false false true [textedDoc] PStore.empty).1.mem =
      ⟨PStore.empty.mem.index ++ [textedDoc].map (fun doc => doc.text),
        PStore.empty.mem.documents ++
          stampFrom PStore.empty.mem.index.length [textedDoc]⟩) ∧
    ((add_documentsP false false true [textedDoc] PStore.empty).2 =
      .ok ([textedDoc].length)) ∧
    ((add_documentsP false true true [textedDoc] PStore.empty).1.savedIndex =
        PStore.empty.savedIndex ∧
      (add_documentsP false true true [textedDoc] PStore.empty).1.savedDocuments =
        PStore.empty.savedDocuments) ∧
    ((add_documentsP false false true [textedDoc] PStore.empty).1.savedIndex =
        PStore.empty.mem.index ++ [textedDoc].map (fun doc => doc.text) ∧
      (add_documentsP false false true [textedDoc] PStore.empty).1.savedDocuments =
        PStore.empty.savedDocuments) ∧
    ((add_documentsP false false false [textedDoc] PStore.empty).1.savedIndex =
        PStore.empty.mem.index ++ [textedDoc].map (fun doc => doc.text) ∧
      (add_documentsP false false false [textedDoc] PStore.empty).1.savedDocuments =
        PStore.empty.mem.documents ++
          stampFrom PStore.empty.mem.index.length [textedDoc]) :=
  C3_add_failure_semantics false true [textedDoc] PStore.empty (by decide)

/-- One persisted artifact as found at `_load` time: the file may be
missing, its parse (`faiss.read_index` / `pickle.load`) may raise, or it
parses to content. -/
inductive Artifact (α : Type) where
  | missing
  | corrupt
  | parsed (value : α)
  deriving DecidableEq, Repr

/-- `FAISSVectorStore._load` (lines 46-64): the in-memory state before the
call is the fresh empty store; the load is attempted only when both files
exist, the index is parsed first, then the metadata, and any exception
resets both `self.index` and `self.documents` to empty — so the result is
the parsed pair when both artifacts parse, and the empty store in every
other case (either file missing, or either parse raising, even after the
index was already assigned). -/
def pyLoad (indexArtifact : Artifact (List String))
    (docsArtifact : Artifact (List StoredDoc)) : Store :=
  match indexArtifact, docsArtifact with
  | .parsed index, .parsed documents => ⟨index, documents⟩
  | _, _ => Store.empty

/-- C6: load treats the artifact pair atomically — the result is either the
fully parsed pair or the empty consistent store, and whenever either
artifact is missing or fails to parse the result is the empty store;
metadata is never loaded without its matching index nor vice versa. -/
theorem C6_load_atomic (indexArtifact : Artifact (List String))
    (docsArtifact : Artifact (List StoredDoc)) :
    ((∃ index documents, indexArtifact = .parsed index ∧
        docsArtifact = .parsed documents ∧
        pyLoad indexArtifact docsArtifact = ⟨index, documents⟩) ∨
      pyLoad indexArtifact docsArtifact = Store.empty) ∧
    ((indexArtifact = .missing ∨ indexArtifact = .corrupt ∨
        docsArtifact = .missing ∨ docsArtifact = .corrupt) →
      pyLoad indexArtifact docsArtifact = Store.empty) := by
  constructor
  · cases indexArtifact with
    | missing => exact Or.inr rfl
    | corrupt => exact Or.inr rfl
    | parsed index =>
      cases docsArtifact with
      | missing => exact Or.inr rfl
      | corrupt => exact Or.inr rfl
      | parsed documents => exact Or.inl ⟨index, documents, rfl, rfl, rfl⟩
  · intro h
    cases indexArtifact <;> cases docsArtifact <;>
      first
        | rfl
        | (rcases h with h | h | h | h <;> cases h)

/-- Witness for C6: a corrupt metadata artifact next to a parsed index
artifact falls back to the empty store. -/
theorem C6_witness :
    ((∃ index documents,
        (Artifact.parsed ["hello"] : Artifact (List String)) = .parsed index ∧
        (Artifact.corrupt : Artifact (List StoredDoc)) = .parsed documents ∧
        pyLoad (.parsed ["hello"]) .corrupt = ⟨index, documents⟩) ∨
      pyLoad (.parsed ["hello"]) (.corrupt : Artifact (List StoredDoc)) =
        Store.empty) ∧
    pyLoad (.parsed ["hello"]) (.corrupt : Artifact (List StoredDoc)) =
      Store.empty :=
  ⟨(C6_load_atomic (.parsed ["hello"]) .corrupt).1,
    (C6_load_atomic (.parsed ["hello"]) .corrupt).2
      (Or.inr (Or.inr (Or.inr rfl)))⟩

/-! ## Chunking (`DocumentEmbedder.chunk_text`, claim C7) -/

/-- Normalise one Python slice index for a sequence of length `n`: negative
indices count from the end (floored at 0), positive ones are capped at `n`. -/
def pyIdx (n : Nat) (i : Int) : Nat :=
  if i < 0 then ((n : Int) + i).toNat else min i.toNat n

/-- Python slice `t[a:b]`. -/
def pySlice (t : List Char) (a b : Int) : List Char :=
  (t.take (pyIdx t.length b)).drop (pyIdx t.length a)

/-- Whether `sub` occurs in `t` starting at absolute position `i`. -/
def matchesAt (t sub : List Char) (i : Nat) : Bool :=
  decide ((t.drop i).take sub.length = sub)

/-- Python `t.rfind(sub, a, b)`: the largest absolute index of an occurrence
of `sub` lying entirely inside the normalised range `[a, b)`, or `-1`. -/
def pyRfind (t sub : List Char) (a b : Int) : Int :=
  let a2 := pyIdx t.length a
  let b2 := pyIdx t.length b
  let hits := (List.range (t.length + 1)).filter
    (fun i => decide (a2 ≤ i) && decide (i + sub.length ≤ b2) && matchesAt t sub i)
  match hits.max? with
  | some i => (i : Int)
  | none => -1

/-- `max(text.rfind('. ', search_start, end), text.rfind('! ', ...),
text.rfind('? ', ...))` (embeddings.py lines 96-100). -/
def lastPeriod (text : List Char) (search_start e : Int) : Int :=
  max (pyRfind text ['.', ' '] search_start e)
    (max (pyRfind text ['!', ' '] search_start e)
      (pyRfind text ['?', ' '] search_start e))

/-- The `while start < len(text)` loop of `DocumentEmbedder.chunk_text`
(embeddings.py lines 88-115), indexed by fuel: `none` means the loop has not
finished within `fuel` iterations.  Each spin computes the window end,
snaps it back to the latest sentence boundary found in the last 100
characters when the end falls strictly inside the text, emits the chunk,
steps `start` back by `overlap`, and takes the tiny-tail early exit when the
remainder would be short. -/
def chunkLoop (text : List Char) (chunk_size overlap : Int) :
    Nat → Int → List (List Char) → Option (List (List Char))
  | 0, _, _ => none
  | fuel + 1, start, chunks =>
    if start < (text.length : Int) then
      let e0 := min (start + chunk_size) (text.length : Int)
      let e :=
        if e0 < (text.length : Int) then
          let search_start := max (e0 - 100) start
          let lp := lastPeriod text search_start e0
          if lp > start then lp + 2 else e0
        else e0
      let chunks2 := chunks ++ [pySlice text start e]
      let start2 := e - overlap
      if start2 + chunk_size > (text.length : Int) ∧
          start2 < (text.length : Int) - overlap then
        some (chunks2 ++ [pySlice text start2 (text.length : Int)])
      else
        chunkLoop text chunk_size overlap fuel start2 chunks2
    else
      some chunks

/-- `DocumentEmbedder.chunk_text` (embeddings.py lines 69-117), fuel-indexed:
`some chunks` when the method returns within `fuel` loop iterations, `none`
otherwise.  The method performs no validation of `overlap < chunk_size` and
raises nothing on any configuration. -/
def chunk_text (fuel : Nat) (text : List Char) (chunk_size overlap : Int) :
    Option (List (List Char)) :=
  if text = [] ∨ (text.length : Int) ≤ chunk_size then
    some (if text = [] then [] else [text])
  else
    chunkLoop text chunk_size overlap fuel 0 []

/-- The failing input of claim C7: a five-character text with no sentence
punctuation. -/
def aText : List Char := ['a', 'a', 'a', 'a', 'a']

theorem chunkLoop_aText_step (fuel : Nat) (chunks : List (List Char)) :
    chunkLoop aText 2 2 (fuel + 1) 0 chunks =
      chunkLoop aText 2 2 fuel 0 (chunks ++ [['a', 'a']]) := rfl

theorem chunkLoop_aText_none (fuel : Nat) :
    ∀ chunks, chunkLoop aText 2 2 fuel 0 chunks = none := by
  induction fuel with
  | zero => intro chunks; rfl
  | succ fuel ih =>
    intro chunks
    rw [chunkLoop_aText_step]
    exact ih _

/-- C7: `chunk_text` does not terminate on every input — it has no
`overlap < chunk_size` validation and raises no configuration error, and on
text `"aaaaa"` with `chunk_size = 2, overlap = 2` the loop re-enters the
same state forever (the window start never advances), so no amount of fuel
makes it return. -/
theorem C7_chunk_text_nonterminating (fuel : Nat) :
    chunk_text fuel aText 2 2 = none := by
  have hcond : ¬ (aText = [] ∨ ((aText.length : Int) ≤ 2)) := by decide
  rw [chunk_text, if_neg hcond]
  exact chunkLoop_aText_none fuel []

/-! ## Chunk documents (`DocumentEmbedder.embed_chunked_document`, claim C8) -/

/-- A Python value as handled by `embed_chunked_document`: the fields it
builds or reads are strings and ints. -/
inductive PyVal where
  | str (s : String)
  | int (n : Int)
  deriving DecidableEq, Repr

/-- f-string rendering of a `PyVal` (`f"{chunk_metadata.get('id', 'doc')}"`). -/
def PyVal.format : PyVal → String
  | .str s => s
  | .int n => toString n

/-- A Python dict over string keys: insertion-ordered entries, assignment to
an existing key replaces its value in place. -/
abbrev PyDict := List (String × PyVal)

/-- Python dict assignment `d[k] = v`. -/
def dictSet (d : PyDict) (k : String) (v : PyVal) : PyDict :=
  if d.any (fun kv => kv.1 == k) then
    d.map (fun kv => if kv.1 == k then (k, v) else kv)
  else d ++ [(k, v)]

/-- Python `d.get(k)`. -/
def dictGet (d : PyDict) (k : String) : Option PyVal :=
  (d.find? (fun kv => kv.1 == k)).map (fun kv => kv.2)

/-- A Python dict literal with a final `**splat`: the literal entries are
inserted in order, then the splatted dict's entries, later keys replacing
earlier ones. -/
def dictLit (entries : List (String × PyVal)) (splat : PyDict) : PyDict :=
  (entries ++ splat).foldl (fun acc kv => dictSet acc kv.1 kv.2) []

/-- `enumerate(chunks)` starting at `i`. -/
def enumFrom (i : Nat) : List α → List (Nat × α)
  | [] => []
  | a :: as => (i, a) :: enumFrom (i + 1) as

/-- `DocumentEmbedder.embed_chunked_document` (embeddings.py lines 119-156),
fuel inherited from `chunk_text`.  Per chunk it builds
`{"id": f"{chunk_metadata.get('id', 'doc')}_chunk_{i}", "text": chunk_text,
"chunk_index": i, "chunk_count": len(chunks), **chunk_metadata}` — the
splat of the metadata copy comes last (line 151). -/
def embed_chunked_document (fuel : Nat) (text : List Char)
    (metadata : Option PyDict) (chunk_size overlap : Int) :
    Option (List PyDict) :=
  if text = [] then some []
  else
    match chunk_text fuel text chunk_size overlap with
    | none => none
    | some chunks =>
      some ((enumFrom 0 chunks).map (fun p =>
        let chunk_metadata := metadata.getD []
        dictLit
          [("id", .str (((dictGet chunk_metadata "id").getD
              (.str "doc")).format ++ "_chunk_" ++ toString p.1)),
            ("text", .str (String.mk p.2)),
            ("chunk_index", .int p.1),
            ("chunk_count", .int chunks.length)]
          chunk_metadata))

/-- The failing input of claim C8: a short text with metadata `{"id": "x"}`. -/
def helloText : List Char := ['h', 'e', 'l', 'l', 'o']

/-- C8: with metadata `{"id": "x"}`, the single chunk document comes back
with id `"x"`, not the suffixed `"x_chunk_0"` the claim requires — the
`**chunk_metadata` splat is merged last and overrides the generated id
(every metadata field, the base id included, survives unchanged, while
`text`, `chunk_index` and `chunk_count` keep their generated values only
because the metadata has no such keys). -/
theorem C8_metadata_overrides_chunk_id :
    (embed_chunked_document 1 helloText (some [("id", .str "x")]) 1000 200).map
        (fun docs => docs.map (fun d =>
          (dictGet d "id", dictGet d "chunk_index", dictGet d "chunk_count"))) =
      some [(some (.str "x"), some (.int 0), some (.int 1))] ∧
    some (PyVal.str "x") ≠ some (PyVal.str "x_chunk_0") := by
  constructor
  · rfl
  · decide

/-! ## Ingestion (`DataSyncer`, `DataIngestion.ingest_data`, claim C2) -/

/-- `DataSyncer.extract_date_from_iso` (data_sync.py lines 337-342). -/
def extract_date_from_iso (iso_string : Option String) : String :=
  match iso_string with
  | none => ""
  | some s => if s = "" then "" else (s.splitOn "T").headD ""

/-- One node of a Limitless lifelog's `contents` array. -/
structure ContentNode where
  type : Option String
  content : String
  speakerName : String
  deriving DecidableEq, Repr

/-- A raw Limitless lifelog record as handed over by `get_lifelogs`. -/
structure Lifelog where
  id : Option String
  contents : List ContentNode
  startTime : Option String
  endTime : Option String
  deriving DecidableEq, Repr

/-- The `for content_node in lifelog.get('contents', [])` pass of
`combine_data_for_vector_storage` (data_sync.py lines 367-384), returning
`(summary, short_summary, transcript)`: `heading1` overwrites the summary,
the first `heading2` sets the short summary, `blockquote` nodes append to
the transcript with an optional speaker prefix. -/
def processContents (nodes : List ContentNode) : String × String × String :=
  nodes.foldl (fun acc node =>
    match node.type with
    | some "heading1" => (node.content, acc.2.1, acc.2.2)
    | some "heading2" =>
      (acc.1, if acc.2.1 = "" then node.content else acc.2.1, acc.2.2)
    | some "blockquote" =>
      (acc.1, acc.2.1, acc.2.2 ++
        (if node.speakerName ≠ "" then
          node.speakerName ++ ": " ++ node.content ++ "\n"
        else node.content ++ "\n"))
    | _ => acc) ("", "", "")

/-- One utterance of a Bee conversation transcription. -/
structure Utterance where
  start : Option Int
  speaker : Option String
  text : Option String
  deriving DecidableEq, Repr

/-- A `get_conversation_details` payload after the `'conversation'` unwrap
(data_sync.py lines 424-426): its transcriptions, each a list of
utterances; `none` models a payload without a `transcriptions` key. -/
structure ConvDetails where
  transcriptions : Option (List (List Utterance))
  deriving DecidableEq, Repr

/-- A raw Bee conversation record as handed over by `get_conversations`. -/
structure BeeConv where
  id : Option String
  start_time : Option String
  end_time : Option String
  summary : Option String
  short_summary : Option String
  primary_location : Option String
  deriving DecidableEq, Repr

/-- The `{'conversations': ..., 'details': ...}` result of
`fetch_bee_data`. -/
structure BeeData where
  conversations : List BeeConv
  details : List (String × ConvDetails)
  deriving DecidableEq, Repr

/-- The transcription-based text extraction of
`combine_data_for_vector_storage` (data_sync.py lines 428-449): flatten all
transcriptions' utterances, sort them by `start` when every utterance has
one, render each utterance with its optional `Speaker ...: ` lead, join
with newlines. -/
def beeTranscriptText (cd : Option ConvDetails) : String :=
  match cd with
  | none => ""
  | some d =>
    match d.transcriptions with
    | none => ""
    | some ts =>
      let utterances := ts.foldl (fun acc u => acc ++ u) []
      let utterances2 :=
        if utterances ≠ [] ∧ utterances.all (fun u => u.start.isSome) then
          pySorted (fun u v => decide ((u.start.getD 0) ≤ (v.start.getD 0)))
            utterances
        else utterances
      let text_parts := utterances2.filterMap (fun u =>
        match u.text with
        | some t =>
          some ((match u.speaker with
            | some sp => "Speaker " ++ sp ++ ": "
            | none => "") ++ t)
        | none => none)
      String.intercalate "\n" text_parts

/-- The full text-content selection for one Bee conversation (data_sync.py
lines 421-459): the transcription text, else the truthy `summary`, else the
truthy `short_summary`, else empty (the caller then skips the record). -/
def beeText (conversation : BeeConv) (cd : Option ConvDetails) : String :=
  let text_content := beeTranscriptText cd
  let text_content :=
    if text_content = "" ∧ (conversation.summary.getD "") ≠ "" then
      conversation.summary.getD ""
    else text_content
  if text_content = "" ∧ (conversation.short_summary.getD "") ≠ "" then
    conversation.short_summary.getD ""
  else text_content

/-- A document as produced by `combine_data_for_vector_storage`
(data_sync.py lines 392-405 and 466-480).  The free-form `metadata`
sub-dict (start/end time, location, source_type) is carried through
unchanged and read by nothing downstream of combine, so it carries no
field here; `chunk_index`/`chunk_count` are set only by the chunking pass. -/
structure CombinedDoc where
  id : String
  source : String
  text : String
  summary : String
  short_summary : String
  date : String
  timestamp : Option String
  chunk_index : Option Nat := none
  chunk_count : Option Nat := none
  deriving DecidableEq, Repr

/-- `DataSyncer.combine_data_for_vector_storage` (data_sync.py lines
344-483): normalize the Limitless lifelogs (skipping records without id or
without transcript), then the Bee conversations (skipping records without
id or without any text content, prefixing ids with `bee_`). -/
def combine_data_for_vector_storage (limitless : List Lifelog)
    (bee : Option BeeData) : List CombinedDoc :=
  let ldocs := limitless.filterMap (fun lifelog =>
    match lifelog.id with
    | none => none
    | some lid =>
      let parts := processContents lifelog.contents
      if parts.2.2 = "" then none
      else
        some
          { id := lid, source := "limitless", text := parts.2.2,
            summary := parts.1, short_summary := parts.2.1,
            date := extract_date_from_iso lifelog.startTime,
            timestamp := lifelog.startTime })
  let bdocs :=
    match bee with
    | none => []
    | some b => b.conversations.filterMap (fun conversation =>
      match conversation.id with
      | none => none
      | some conversation_id =>
        let cd := (b.details.find? (fun kv => kv.1 == conversation_id)).map
          (fun kv => kv.2)
        let text_content := beeText conversation cd
        if text_content = "" then none
        else
          some
            { id := "bee_" ++ conversation_id, source := "bee",
              text := text_content,
              summary := conversation.summary.getD "",
              short_summary := conversation.short_summary.getD "",
              date := extract_date_from_iso conversation.start_time,
              timestamp := conversation.start_time })
  ldocs ++ bdocs

/-- The Bee API client functions (`get_conversations(api_key, limit, page)`
and `get_conversation_details(id, api_key)`), excluded external
collaborators modelled as pure functions of their arguments; details of
`none` model a falsy response (line 179: the conversation is then not
added). -/
structure BeeApi where
  get_conversations : Nat → Nat → List BeeConv
  get_conversation_details : String → Option ConvDetails

/-- Mutable state of the `fetch_bee_data` loop (data_sync.py lines
100-116). -/
structure FetchState where
  conversations : List BeeConv
  details : List (String × ConvDetails)
  existing_ids : List String
  found_existing : Bool
  deriving Repr

/-- Lines 163-183 of data_sync.py: fetch the details of one new
conversation; when they are truthy, record them, append the conversation,
remember the id for this session, and stop once the limit is reached
(`if limit and len(conversations) >= limit`).  Ids are unique per session
(the `existing_ids` check precedes this call), so the dict assignment
`details[conversation_id] = ...` is an append. -/
def addConv (api : BeeApi) (limit : Option Nat) (conversation : BeeConv)
    (conversation_id : String) (st : FetchState) : FetchState :=
  match api.get_conversation_details conversation_id with
  | some conversation_details =>
    let st2 : FetchState :=
      { st with
        details := st.details ++ [(conversation_id, conversation_details)],
        conversations := st.conversations ++ [conversation],
        existing_ids := st.existing_ids ++ [conversation_id] }
    match limit with
    | some (l + 1) =>
      if st2.conversations.length ≥ l + 1 then
        { st2 with found_existing := true }
      else st2
    | _ => st2
  | none => st

/-- The `for conversation in batch` loop of `fetch_bee_data` (data_sync.py
lines 131-183): skip records without an id, stop when an id is already
known, apply the `latest_date` cutoff when one exists (skipping records
whose date cannot be extracted), otherwise fetch and record the
conversation. -/
def processBatch (api : BeeApi) (limit : Option Nat)
    (latest_date : Option String) : List BeeConv → FetchState → FetchState
  | [], st => st
  | conversation :: rest, st =>
    match conversation.id with
    | none => processBatch api limit latest_date rest st
    | some conversation_id =>
      if st.existing_ids.contains conversation_id then
        { st with found_existing := true }
      else
        match latest_date with
        | some ld =>
          let conversation_date := extract_date_from_iso conversation.start_time
          if conversation_date = "" then
            processBatch api limit latest_date rest st
          else if conversation_date ≤ ld then
            { st with found_existing := true }
          else
            let st2 := addConv api limit conversation conversation_id st
            if st2.found_existing then st2
            else processBatch api limit latest_date rest st2
        | none =>
          let st2 := addConv api limit conversation conversation_id st
          if st2.found_existing then st2
          else processBatch api limit latest_date rest st2

/-- The `while not found_existing` pagination loop of `fetch_bee_data`
(data_sync.py lines 117-199), fuel-indexed over pages (the fuel only
matters for infinite sources): fetch a page, stop on an empty batch, sort
it by `start_time` descending, process it, stop when existing data was hit
or the batch came back short. -/
def beePageLoop (api : BeeApi) (latest_date : Option String)
    (limit : Option Nat) (batch_size : Nat) :
    Nat → Nat → FetchState → FetchState
  | 0, _, st => st
  | fuel + 1, page, st =>
    let batch := api.get_conversations batch_size page
    if batch = [] then st
    else
      let sorted_batch := pySorted
        (fun a b => decide ((b.start_time.getD "") ≤ (a.start_time.getD ""))) batch
      let st2 := processBatch api limit latest_date sorted_batch st
      if st2.found_existing ∨ batch.length < batch_size then st2
      else beePageLoop api latest_date limit batch_size fuel (page + 1) st2

/-- `DataSyncer.fetch_bee_data` (data_sync.py lines 82-216).  When a
`vector_store` is handed in (lines 102-108), the call
`vector_store.get_document_ids("bee")` raises `AttributeError` —
`FAISSVectorStore` defines no such method (nor
`get_latest_document_date`) — and the blanket handler at lines 214-216
returns `{}`, modelled as `none`.  Without a store, `existing_ids` starts
empty and `latest_date` is `None`, so no deduplication against stored
state can occur. -/
def fetch_bee_data (api : BeeApi) (fuel : Nat) (vector_store : Option Store)
    (limit : Option Nat) : Option BeeData :=
  match vector_store with
  | some _ => none
  | none =>
    let batch_size := match limit with
      | some (l + 1) => min 50 (l + 1)
      | _ => 50
    let st := beePageLoop api none limit batch_size fuel 1 ⟨[], [], [], false⟩
    let conversations := match limit with
      | some (l + 1) =>
        if st.conversations.length > l + 1 then st.conversations.take (l + 1)
        else st.conversations
      | _ => st.conversations
    let conversations2 :=
      if conversations ≠ [] then
        pySorted (fun a b =>
          decide ((b.start_time.getD "") ≤ (a.start_time.getD ""))) conversations
      else conversations
    some ⟨conversations2, st.details⟩

/-- `DataSyncer.synchronize_data` (data_sync.py lines 218-291) for the
argument shapes `DataIngestion.ingest_data` uses.  The
`strptime`/`timedelta` walk from `start_date` to `end_date` is modelled as
the explicit list of days in the range — a pure function of the two date
strings, independent of any store — and `get_lifelogs` as a per-date pure
function (it already receives the `existing_dates` markdown-file set, which
is identical across runs with no store mutation).  When `check_existing` is
true the limitless helper receives the store, immediately calls the missing
`vector_store.get_latest_document_date` (data_sync.py line 56) and its
handler (lines 78-80) returns `[]` for every date. -/
def synchronize_data (get_lifelogs : String → List Lifelog) (api : BeeApi)
    (fuel : Nat) (vector_store : Option Store) (dateRange : List String)
    (limit_per_day : Option Nat) (check_existing : Bool) :
    List Lifelog × Option BeeData :=
  let store_arg := if check_existing then vector_store else none
  let limitless_results := dateRange.foldl (fun acc dstr =>
    acc ++ (match store_arg with
      | some _ => []
      | none => get_lifelogs dstr)) []
  let bee_data := fetch_bee_data api fuel store_arg limit_per_day
  (limitless_results, bee_data)

/-- Projection of a combined document onto the fields `FAISSVectorStore`
reads once the record is stored. -/
def CombinedDoc.toStoreDoc (d : CombinedDoc) : Doc :=
  ⟨d.id, d.text, some d.date, some d.source⟩

/-- The chunk-if-long pass of `DataIngestion.ingest_data` (data_ingestion.py
lines 193-216): skip documents without text; keep texts under 2000
characters as they are; longer texts go through
`embed_chunked_document(text, metadata = doc minus text, chunk_size=2000,
overlap=200)`, whose result (theorem `C8_metadata_overrides_chunk_id`) is
one document per chunk holding every metadata field unchanged — the
unsuffixed id included, since the metadata splat overrides the generated
id — with `text` replaced by the chunk text and `chunk_index` /
`chunk_count` set.  `none` when `chunk_text` does not finish within the
fuel. -/
def chunkStage (fuel : Nat) : List CombinedDoc → Option (List CombinedDoc)
  | [] => some []
  | doc :: rest =>
    if doc.text = "" then chunkStage fuel rest
    else if doc.text.length < 2000 then
      (chunkStage fuel rest).map (fun cs => doc :: cs)
    else
      match chunk_text fuel doc.text.toList 2000 200 with
      | none => none
      | some chunks =>
        (chunkStage fuel rest).map (fun cs =>
          (enumFrom 0 chunks).map (fun p =>
            { doc with
                text := String.mk p.2,
                chunk_index := some p.1,
                chunk_count := some chunks.length }) ++ cs)

/-- The direct store append of `DataIngestion.ingest_data` (data_ingestion.py
lines 228-251): embed every chunked document's text, extend the index,
append the metadata records with stamped `vector_id = current_size + i`,
then `_save` (invisible in memory). -/
def ingestCommit (chunked_documents : List Doc) (s : Store) : Store :=
  ⟨s.index ++ chunked_documents.map (fun doc => doc.text),
    s.documents ++ stampFrom s.index.length chunked_documents⟩

/-- The result dict of `ingest_data` (data_ingestion.py lines 222-226 and
255-259). -/
structure IngestResult where
  total_documents : Nat
  processed_documents : Nat
  added_to_vector_store : Nat
  deriving DecidableEq, Repr

/-- `DataIngestion.ingest_data` (data_ingestion.py lines 159-259).  The
call to `synchronize_data` (lines 180-186) passes NO `vector_store` and
leaves `check_existing` at its default `False`, so the fetch helpers never
see the store and no deduplication against stored ids or stored latest
dates can occur. -/
def ingest_data (get_lifelogs : String → List Lifelog) (api : BeeApi)
    (fuel : Nat) (dateRange : List String) (limit_per_day : Option Nat)
    (s : Store) : Option (Store × IngestResult) :=
  let data := synchronize_data get_lifelogs api fuel none dateRange
    limit_per_day false
  let documents := combine_data_for_vector_storage data.1 data.2
  match chunkStage fuel documents with
  | none => none
  | some chunked_documents =>
    if chunked_documents = [] then
      some (s, ⟨documents.length, 0, 0⟩)
    else
      some (ingestCommit (chunked_documents.map CombinedDoc.toStoreDoc) s,
        ⟨documents.length, chunked_documents.length, chunked_documents.length⟩)

/-- A Bee source holding exactly one conversation (id `"1"`, dated
2025-05-04, summary `"hi"`, no transcription). -/
def beeConv1 : BeeConv :=
  ⟨some "1", some "2025-05-04T10:00:00Z", some "2025-05-04T11:00:00Z",
    some "hi", some "h", none⟩

/-- The one-conversation Bee API of the C2 run: page 1 returns the single
conversation, later pages are empty, details exist for id `"1"` only. -/
def oneConvApi : BeeApi :=
  ⟨fun _limit page => if page = 1 then [beeConv1] else [],
    fun conversation_id =>
      if conversation_id == "1" then some ⟨some []⟩ else none⟩

/-- C2: running `ingest_data` twice over the identical one-conversation Bee
source (no limitless data) with no store mutation in between.  The first
run stores `bee_1`; the second run fetches the same conversation again —
`ingest_data` hands no store to `synchronize_data`, so nothing is
deduplicated — and reports `added_to_vector_store = 1`, not 0, leaving the
store with `bee_1` twice. -/
theorem C2_second_run_adds_again :
    (ingest_data (fun _ => []) oneConvApi 4 ["2025-05-04"] (some 50)
        Store.empty).map (fun r => (r.2.added_to_vector_store,
          r.1.documents.map (fun doc => doc.doc.id))) =
      some (1, ["bee_1"]) ∧
    ((ingest_data (fun _ => []) oneConvApi 4 ["2025-05-04"] (some 50)
        Store.empty).bind (fun r =>
          ingest_data (fun _ => []) oneConvApi 4 ["2025-05-04"] (some 50)
            r.1)).map (fun r => (r.2.added_to_vector_store,
          r.1.documents.map (fun doc => doc.doc.id))) =
      some (1, ["bee_1", "bee_1"]) := by
  constructor <;> rfl
